import Mathlib

/-!
Verification of the `ssecat` SSE broadcast server (src/ssed.go) against its
natural-language specification.

The Go program is a single-file SSE server: a `Broker` owning a registry
`clients map[chan []byte]bool`, mutated only inside the `listen` goroutine's
select loop over three intakes (`newClients`, `closingClients`, `Notifier`);
per-connection handlers (`ServeHTTP`) that register an unbuffered channel and
relay messages from it to the HTTP response; and two producers (`PromptHandler`
and the stdin scanner in `main`) that feed `Notifier`.

We embed each relevant piece as an executable Lean definition and prove or
refute the specification's claims about it.
-/

namespace Ssecat

/-- A subscriber channel, identified by its identity. In Go this is the
`chan []byte` value created at src/ssed.go:63; we name channels by `Nat`. -/
abbrev Chan := Nat

/-- A message: an opaque byte sequence (`[]byte` in Go). -/
abbrev Msg := List Nat

/-- One event arriving at the broker's coordination loop, i.e. one value taken
from one of the three intakes in `listen` (src/ssed.go:96-116):
`newClients` (register), `closingClients` (deregister), `Notifier` (publish). -/
inductive Op where
  | register (c : Chan)
  | deregister (c : Chan)
  | publish (m : Msg)
deriving DecidableEq

/-- The broker's state as seen by the coordination loop: the registry
`clients` (a Go map keyed by channel, so duplicate-free; modelled as a
duplicate-free list), together with, for bookkeeping of delivery order, the
sequence of messages each channel has been sent so far. -/
structure BrokerState where
  clients : List Chan
  delivered : Chan → List Msg

/-- The broker's initial state: `clients: make(map[chan []byte]bool)`
(src/ssed.go:37), an empty registry with nothing delivered. -/
def initState : BrokerState := ⟨[], fun _ => []⟩

/-- One iteration of the coordination loop `listen` (src/ssed.go:94-117):
- `register c`: `broker.clients[s] = true` (line 101) — map insert, a no-op on
  the key set if the key is already present;
- `deregister c`: `delete(broker.clients, s)` (line 106) — map delete, a no-op
  if the key is absent;
- `publish m`: `for clientMessageChan := range broker.clients
  { clientMessageChan <- event }` (lines 111-112) — the message is sent to
  every currently registered channel, recorded here in `delivered`. -/
def listenStep (st : BrokerState) (op : Op) : BrokerState :=
  match op with
  | .register c =>
      { st with clients := if c ∈ st.clients then st.clients else c :: st.clients }
  | .deregister c =>
      { st with clients := st.clients.erase c }
  | .publish m =>
      { st with delivered := fun d =>
          if d ∈ st.clients then st.delivered d ++ [m] else st.delivered d }

/-- The coordination loop after serially draining the given sequence of intake
events, started from the initial broker state. -/
def listenRun (ops : List Op) : BrokerState :=
  ops.foldl listenStep initState

/-- Follows the spec's words, for comparison with the code's registry:
starting from `b` ("was already active"), a channel is active after `ops` iff
it was registered and not subsequently deregistered. -/
def specActiveFrom (ops : List Op) (c : Chan) (b : Bool) : Bool :=
  ops.foldl (fun b op =>
    match op with
    | .register d => if d = c then true else b
    | .deregister d => if d = c then false else b
    | .publish _ => b) b

/-- Follows the spec's words: `c` was registered by `ops` and not subsequently
deregistered. -/
def specActive (ops : List Op) (c : Chan) : Bool :=
  specActiveFrom ops c false

theorem specActiveFrom_cons (op : Op) (ops : List Op) (c : Chan) (b : Bool) :
    specActiveFrom (op :: ops) c b =
      specActiveFrom ops c
        (match op with
          | .register d => if d = c then true else b
          | .deregister d => if d = c then false else b
          | .publish _ => b) := rfl

/-- Helper for C2: folding the loop from any duplicate-free state keeps the
registry duplicate-free, and membership of `c` afterwards is decided by the
register/deregister history applied to the starting membership. -/
theorem clients_foldl (ops : List Op) (st : BrokerState) (c : Chan)
    (h : st.clients.Nodup) :
    (ops.foldl listenStep st).clients.Nodup ∧
      (c ∈ (ops.foldl listenStep st).clients ↔
        specActiveFrom ops c (decide (c ∈ st.clients)) = true) := by
  induction ops generalizing st with
  | nil =>
      refine ⟨h, ?_⟩
      simp [specActiveFrom]
  | cons op rest ih =>
      cases op with
      | register d =>
          have hn : (listenStep st (.register d)).clients.Nodup := by
            simp only [listenStep]
            by_cases hd : d ∈ st.clients
            · simpa [hd] using h
            · simp only [hd, if_false]
              exact List.nodup_cons.mpr ⟨hd, h⟩
          have hmem : (c ∈ (listenStep st (.register d)).clients) ↔
              (d = c ∨ c ∈ st.clients) := by
            simp only [listenStep]
            by_cases hd : d ∈ st.clients
            · simp only [hd, if_true]
              constructor
              · exact Or.inr
              · rintro (rfl | hc)
                · exact hd
                · exact hc
            · simp [hd, eq_comm]
          obtain ⟨h1, h2⟩ := ih (listenStep st (.register d)) hn
          refine ⟨h1, ?_⟩
          rw [List.foldl_cons] at *
          rw [h2, specActiveFrom_cons]
          by_cases hdc : d = c
          · subst hdc
            have hin : d ∈ (listenStep st (.register d)).clients :=
              hmem.mpr (Or.inl rfl)
            simp [hin]
          · have : (decide (c ∈ (listenStep st (.register d)).clients)) =
                (decide (c ∈ st.clients)) := by
              simp [hmem, hdc]
            rw [this]
            simp [hdc]
      | deregister d =>
          have hn : (listenStep st (.deregister d)).clients.Nodup := by
            simpa [listenStep] using h.erase d
          have hmem : (c ∈ (listenStep st (.deregister d)).clients) ↔
              (c ≠ d ∧ c ∈ st.clients) := by
            simp only [listenStep]
            exact h.mem_erase_iff
          obtain ⟨h1, h2⟩ := ih (listenStep st (.deregister d)) hn
          refine ⟨h1, ?_⟩
          rw [List.foldl_cons] at *
          rw [h2, specActiveFrom_cons]
          by_cases hdc : d = c
          · subst hdc
            have hout : d ∉ (listenStep st (.deregister d)).clients := by
              intro hc
              exact (hmem.mp hc).1 rfl
            simp [hout]
          · have : (decide (c ∈ (listenStep st (.deregister d)).clients)) =
                (decide (c ∈ st.clients)) := by
              simp [hmem, Ne.symm hdc]
            rw [this]
            simp [hdc]
      | publish m =>
          have hn : (listenStep st (.publish m)).clients.Nodup := by
            simpa [listenStep] using h
          obtain ⟨h1, h2⟩ := ih (listenStep st (.publish m)) hn
          refine ⟨h1, ?_⟩
          rw [List.foldl_cons] at *
          rw [h2, specActiveFrom_cons]
          rfl

/-- C2: after the coordination loop drains any finite sequence of register,
deregister and publish events, the registry contains exactly the channels that
were registered and not subsequently deregistered, and it has no duplicate
entries. -/
theorem registry_exactly_active (ops : List Op) (c : Chan) :
    (c ∈ (listenRun ops).clients ↔ specActive ops c = true) ∧
      (listenRun ops).clients.Nodup := by
  have h := clients_foldl ops initState c (by simp [initState])
  refine ⟨?_, h.1⟩
  rw [listenRun, h.2]
  simp [specActive, initState]

/-- C5: deregistering a channel that is not in the registry leaves the whole
broker state unchanged; deregistering a channel a second time after it was
removed changes nothing; and for any other channel, membership in the registry
is unaffected by the deregistration. -/
theorem deregister_noop_idempotent (st : BrokerState) (c d : Chan)
    (h : st.clients.Nodup) :
    (c ∉ st.clients → listenStep st (Op.deregister c) = st) ∧
      listenStep (listenStep st (Op.deregister c)) (Op.deregister c) =
        listenStep st (Op.deregister c) ∧
      (d ≠ c → (d ∈ (listenStep st (Op.deregister c)).clients ↔ d ∈ st.clients)) := by
  refine ⟨?_, ?_, ?_⟩
  · intro hc
    simp only [listenStep]
    rw [List.erase_of_not_mem hc]
  · simp only [listenStep]
    rw [List.erase_of_not_mem (h.not_mem_erase)]
  · intro hdc
    simp only [listenStep]
    exact List.mem_erase_of_ne hdc

/-- Witness for C5 at a concrete state: the registry holding channel 2,
deregistering the absent channel 1 is a no-op. -/
theorem deregister_noop_idempotent_witness :
    listenStep ⟨[2], fun _ => []⟩ (Op.deregister 1) = ⟨[2], fun _ => []⟩ :=
  (deregister_noop_idempotent ⟨[2], fun _ => []⟩ 1 2 (by decide)).1 (by decide)

/-- The published messages of an event sequence, in the order the coordination
loop processes them from the `Notifier` intake. -/
def publishedMsgs (ops : List Op) : List Msg :=
  ops.filterMap (fun op =>
    match op with
    | .publish m => some m
    | _ => none)

/-- Helper for C8: folding the loop from any state appends to a channel's
delivered sequence an order-preserving subsequence of the published messages.
Delivery order per channel follows loop processing order because each send in
the fan-out (src/ssed.go:111-112) completes before the loop takes the next
event, and a Go channel is FIFO. -/
theorem delivered_foldl (ops : List Op) (st : BrokerState) (c : Chan) :
    ∃ l, (ops.foldl listenStep st).delivered c = st.delivered c ++ l ∧
      l.Sublist (publishedMsgs ops) := by
  induction ops generalizing st with
  | nil => exact ⟨[], by simp, by simp [publishedMsgs]⟩
  | cons op rest ih =>
      cases op with
      | register d =>
          obtain ⟨l, hl, hs⟩ := ih (listenStep st (.register d))
          refine ⟨l, ?_, ?_⟩
          · rw [List.foldl_cons] at *
            simpa [listenStep] using hl
          · simpa [publishedMsgs] using hs
      | deregister d =>
          obtain ⟨l, hl, hs⟩ := ih (listenStep st (.deregister d))
          refine ⟨l, ?_, ?_⟩
          · rw [List.foldl_cons] at *
            simpa [listenStep] using hl
          · simpa [publishedMsgs] using hs
      | publish m =>
          obtain ⟨l, hl, hs⟩ := ih (listenStep st (.publish m))
          have hpub : publishedMsgs (Op.publish m :: rest) = m :: publishedMsgs rest := by
            simp [publishedMsgs]
          by_cases hc : c ∈ st.clients
          · refine ⟨m :: l, ?_, ?_⟩
            · rw [List.foldl_cons, hl]
              simp [listenStep, hc]
            · rw [hpub]
              exact hs.cons₂ m
          · refine ⟨l, ?_, ?_⟩
            · rw [List.foldl_cons, hl]
              simp [listenStep, hc]
            · rw [hpub]
              exact hs.cons m

/-- C8: the sequence of messages a subscriber receives is an order-preserving
subsequence of the published messages in loop-processing order; in particular
if the loop processed m1 before m2 and both reached the subscriber, the
subscriber received m1 before m2. -/
theorem per_subscriber_fifo (ops : List Op) (c : Chan) :
    ((listenRun ops).delivered c).Sublist (publishedMsgs ops) := by
  obtain ⟨l, hl, hs⟩ := delivered_foldl ops initState c
  rw [listenRun, hl]
  simpa [initState] using hs

/-- Fan-out of one published message, as the loop performs it
(src/ssed.go:111-112): the sends run sequentially in registry iteration order,
and each send `clientMessageChan <- event` is on an unbuffered channel (made
with no capacity at src/ssed.go:63), so it completes only when that
subscriber's handler is ready to receive at `<-messageChan` (line 86). `ready`
says which subscribers' handlers are ready; a subscriber that is never ready
blocks its send forever, so the message reaches exactly the subscribers before
the first non-ready one. The result is the list of subscribers whose delivery
completed. -/
def fanoutOffered (registry : List Chan) (ready : Chan → Bool) : List Chan :=
  registry.takeWhile ready

/-- C1 fails on the code: with registry iteration order `[1, 2]` where
subscriber 1 is stalled (its handler never ready) and subscriber 2 is ready,
the fan-out delivers the message to nobody — the blocking send to the stalled
subscriber 1 prevents the offer of the same message to subscriber 2. -/
theorem stalled_subscriber_blocks_others :
    fanoutOffered [1, 2] (fun c => decide (c ≠ 1)) = [] ∧
      (2 : Chan) ∈ [1, 2] ∧ (fun c => decide (c ≠ 1)) 2 = true ∧
      (2 : Chan) ∉ fanoutOffered [1, 2] (fun c => decide (c ≠ 1)) := by
  refine ⟨rfl, by decide, rfl, by decide⟩

/-- State of a connection handler's relay loop (src/ssed.go:82-90): either
still streaming — with the messages pending on its subscriber channel and the
messages written to the transport so far — or closed (loop exited). -/
inductive RelayState where
  | streaming (pending : List Msg) (written : List Msg)
  | closed (written : List Msg)
deriving DecidableEq

/-- One step of the relay loop
`for { fmt.Fprintf(rw, "data: %s\n\n", <-messageChan); flusher.Flush() }`
(src/ssed.go:82-90): receive the next pending message and write it out; with
nothing pending, the receive blocks and the state is unchanged. The loop body
has no break or return, the write error from Fprintf is discarded, and nothing
in the handler selects on the disconnect notification inside this loop, so no
step reaches the closed state. -/
def relayStep : RelayState → RelayState
  | .streaming (m :: rest) w => .streaming rest (w ++ [m])
  | .streaming [] w => .streaming [] w
  | .closed w => .closed w

/-- C9 fails on the code: once the subscriber's channel is deregistered, no
further message is ever sent on it and it is never closed, so the relay loop
stays blocked at the receive forever — after any number of steps it is still
in the same blocked streaming state and never terminates. -/
theorem relay_loop_never_exits (n : Nat) (w : List Msg) :
    relayStep^[n] (RelayState.streaming [] w) = RelayState.streaming [] w := by
  induction n with
  | zero => rfl
  | succ k ih => rw [Function.iterate_succ_apply', ih]; rfl

/-- One request a connection handler submits to a broker intake. -/
inductive Submission where
  | register (c : Chan)
  | deregister (c : Chan)
deriving DecidableEq

/-- The broker-loop event a submission becomes when the loop drains it. -/
def subToOp : Submission → Op
  | .register c => .register c
  | .deregister c => .deregister c

/-- The intake submissions `ServeHTTP` (src/ssed.go:45-92) makes for the
connection's channel `c`:
- lines 50-55: if the ResponseWriter does not support `http.Flusher`
  (`flusherOk = false`), respond with an error and return before creating or
  registering any channel — no submission at all;
- line 66: `broker.newClients <- messageChan` — one registration;
- lines 77-80: a goroutine sends `broker.closingClients <- messageChan` once
  when the transport disconnect notification fires (`disconnect = true`);
- lines 70-72: a deferred `broker.closingClients <- messageChan` runs if and
  only if `ServeHTTP` returns (`handlerReturned`); the relay loop has no exit
  path (see `relayStep`: no step of it reaches the closed state), so after
  registration `ServeHTTP` in fact never returns;
- line 86: the error of a failed `fmt.Fprintf` write is discarded and triggers
  nothing, however many writes fail (`writeFailures`). -/
def serveHTTPSubmissions (flusherOk disconnect handlerReturned : Bool)
    (writeFailures : Nat) (c : Chan) : List Submission :=
  if flusherOk then
    [Submission.register c] ++
      (if disconnect then [Submission.deregister c] else []) ++
      (if handlerReturned then [Submission.deregister c] else []) ++
      (List.replicate writeFailures []).flatten
  else []

/-- The response `ServeHTTP` produces when the transport cannot flush
(src/ssed.go:50-55): `http.Error(rw, "Streaming unsupported!",
http.StatusInternalServerError)`. -/
def serveHTTPErrorStatus (flusherOk : Bool) : Option Nat :=
  if flusherOk then none else some 500

/-- C3: a handler that registered (the transport supported flushing) and
reached its end of life through transport disconnect submits exactly one
deregistration for its channel — never zero and never two — whatever number of
writes failed along the way; the deferred second deregistration would require
the relay loop to exit, which it never does. -/
theorem deregister_exactly_once (fOk d hret : Bool) (wf : Nat) (c : Chan)
    (hreg : fOk = true) (hclosed : d = true) (hnoret : hret = false) :
    ((serveHTTPSubmissions fOk d hret wf c).filter
        (fun s => decide (s = Submission.deregister c))).length = 1 := by
  subst hreg hclosed hnoret
  simp [serveHTTPSubmissions, List.filter]

/-- Witness for C3 at a concrete connection: channel 7, disconnect observed,
three failed writes, one deregistration submitted. -/
theorem deregister_exactly_once_witness :
    ((serveHTTPSubmissions true true false 3 7).filter
        (fun s => decide (s = Submission.deregister 7))).length = 1 :=
  deregister_exactly_once true true false 3 7 rfl rfl rfl

/-- C7: when the transport cannot perform flushed writes the handler responds
with the streaming-unsupported error, submits nothing to any intake — in
particular it never registers — and the broker state is left untouched by the
(empty) stream of submissions. -/
theorem transport_unsupported_never_registers (fOk d hret : Bool) (wf : Nat)
    (c : Chan) (st : BrokerState) (h : fOk = false) :
    serveHTTPErrorStatus fOk = some 500 ∧
      serveHTTPSubmissions fOk d hret wf c = [] ∧
      (serveHTTPSubmissions fOk d hret wf c).foldl
        (fun s sub => listenStep s (subToOp sub)) st = st := by
  subst h
  exact ⟨rfl, rfl, rfl⟩

/-- Witness for C7 at a concrete connection: no flusher support, channel 4,
broker in its initial state. -/
theorem transport_unsupported_never_registers_witness :
    serveHTTPErrorStatus false = some 500 ∧
      serveHTTPSubmissions false true false 0 4 = [] ∧
      (serveHTTPSubmissions false true false 0 4).foldl
        (fun s sub => listenStep s (subToOp sub)) initState = initState :=
  transport_unsupported_never_registers false true false 0 4 initState rfl

/-- The execution contexts (goroutines) of src/ssed.go that mention the
registry `broker.clients`. -/
inductive ExecCtx where
  | coordinationLoop
  | promptProducer
  | stdinProducer
deriving DecidableEq

/-- Whether an occurrence reads or writes the registry. -/
inductive AccessKind where
  | read
  | write
deriving DecidableEq

/-- One occurrence of `broker.clients` in the source: its line, the execution
context it runs in, and whether it reads or writes the map. -/
structure RegistryAccess where
  line : Nat
  ctx : ExecCtx
  kind : AccessKind
deriving DecidableEq

/-- Every occurrence of `broker.clients` in src/ssed.go after its creation:
- line 101, `broker.clients[s] = true`, in the `listen` goroutine (write);
- line 106, `delete(broker.clients, s)`, in the `listen` goroutine (write);
- line 111, `for clientMessageChan := range broker.clients`, in the `listen`
  goroutine (read);
- line 123, `len(broker.clients)` in `PromptHandler`, which runs in its own
  goroutine (read);
- line 160, `len(broker.clients)` in the verbose logging of the stdin-scanner
  goroutine in `main` (read). -/
def registryAccesses : List RegistryAccess :=
  [⟨101, .coordinationLoop, .write⟩,
   ⟨106, .coordinationLoop, .write⟩,
   ⟨111, .coordinationLoop, .read⟩,
   ⟨123, .promptProducer, .read⟩,
   ⟨160, .stdinProducer, .read⟩]

/-- C4 as stated is false: the prompt producer goroutine reads
`len(broker.clients)` at src/ssed.go:123, an access to the registry from an
execution context other than the coordination loop. -/
theorem registry_read_outside_loop :
    RegistryAccess.mk 123 ExecCtx.promptProducer AccessKind.read ∈ registryAccesses ∧
      ExecCtx.promptProducer ≠ ExecCtx.coordinationLoop := by
  refine ⟨by decide, by decide⟩

/-- C4 amended: every write to the registry happens in the coordination loop;
the only accesses outside the loop are the diagnostic length reads of the two
producers (src/ssed.go:123 and 160). -/
theorem registry_writes_only_in_loop :
    ∀ a ∈ registryAccesses,
      (a.kind = AccessKind.write → a.ctx = ExecCtx.coordinationLoop) ∧
        (a.ctx ≠ ExecCtx.coordinationLoop → a.kind = AccessKind.read) := by
  decide

/-- Witness for the amended C4 at the concrete write access of line 101. -/
theorem registry_writes_only_in_loop_witness :
    (RegistryAccess.mk 101 ExecCtx.coordinationLoop AccessKind.write).ctx =
      ExecCtx.coordinationLoop :=
  (registry_writes_only_in_loop ⟨101, .coordinationLoop, .write⟩ (by decide)).1 rfl

/-- One event in an interleaving of the stdin producer with message delivery:
`scan i` is a successful `scan.Scan()` that leaves line `i` in the scanner's
internal buffer; `deliver p` is the handler writing out the message that was
published right after `scan p`. -/
inductive ProdEvent where
  | scan (i : Nat)
  | deliver (p : Nat)
deriving DecidableEq

/-- Semantics of the stdin producer (src/ssed.go:153-163) with the aliasing of
`bufio.Scanner`: `scan.Bytes()` returns a slice of the scanner's internal
buffer, which the next `scan.Scan()` overwrites, and line 156 publishes that
slice itself — no copy is made. So the state carries the current buffer
contents, a `scan i` event replaces them with line `i`, and a `deliver p`
event records, for the message published at scan `p`, the bytes the handler
actually observes: the buffer contents at delivery time. -/
def runAliased (lines : List Msg) : List ProdEvent → Msg → List (Nat × Msg) →
    List (Nat × Msg)
  | [], _, out => out
  | .scan i :: es, _, out => runAliased lines es (lines.getD i []) out
  | .deliver p :: es, buf, out => runAliased lines es buf (out ++ [(p, buf)])

/-- C6 fails on the code: with input lines "a" = [97] and "bb" = [98, 98], if
the producer scans the second line before the first message is delivered — a
legal interleaving, since the publish intake holds the message while the
producer loops — the subscriber observes [98, 98] for the message published as
[97]: the published bytes were mutated between publication and delivery. -/
theorem published_bytes_mutated :
    runAliased [[97], [98, 98]]
        [ProdEvent.scan 0, ProdEvent.scan 1, ProdEvent.deliver 0] [] [] =
      [(0, [98, 98])] ∧
      [[97], [98, 98]].getD 0 [] ≠ [98, 98] := by
  refine ⟨rfl, by decide⟩

/-- The stdin producer loop (src/ssed.go:153-163): `for scan.Scan()
{ broker.Notifier <- scan.Bytes() }` publishes every scanned line — empty
lines included — exactly once, in order. -/
def stdinPublishes : List Msg → List Msg
  | [] => []
  | l :: rest => l :: stdinPublishes rest

/-- The prompt producer loop `PromptHandler` (src/ssed.go:120-134): each line
read is published by `broker.Notifier <- []byte(line)` (line 131) only inside
`if len(line) > 0` (line 129), so empty lines are skipped. -/
def promptPublishes : List Msg → List Msg
  | [] => []
  | l :: rest =>
      if 0 < l.length then l :: promptPublishes rest else promptPublishes rest

/-- C10 as stated is false: in prompt mode the empty line between [97] and
[98] yields no publish at all — not exactly one message. -/
theorem empty_line_not_published :
    promptPublishes [[97], [], [98]] = [[97], [98]] ∧
      ([] : Msg) ∉ promptPublishes [[97], [], [98]] := by
  refine ⟨rfl, by decide⟩

/-- C10 amended: the stdin producer publishes every unit it scans, empty lines
included, exactly once in producer order; the prompt producer publishes
exactly the non-empty units, in producer order (an order-preserving
subsequence of the input). -/
theorem producer_units_published_in_order (lines : List Msg) :
    stdinPublishes lines = lines ∧
      promptPublishes lines = lines.filter (fun l => decide (0 < l.length)) ∧
      (promptPublishes lines).Sublist lines := by
  refine ⟨?_, ?_, ?_⟩
  · induction lines with
    | nil => rfl
    | cons l rest ih => simp [stdinPublishes, ih]
  · induction lines with
    | nil => rfl
    | cons l rest ih =>
        by_cases hl : 0 < l.length
        · simp [promptPublishes, hl, List.filter, ih]
        · simp [promptPublishes, hl, List.filter, ih]
  · induction lines with
    | nil => exact List.Sublist.refl []
    | cons l rest ih =>
        by_cases hl : 0 < l.length
        · simpa [promptPublishes, hl] using ih.cons₂ l
        · simpa [promptPublishes, hl] using ih.cons l

end Ssecat
